import Mathlib

/-!
Shallow embedding of the teleport networking/dispatch engine (teleport.go,
version 0.4.2). Pure data and the state-transforming operations that the
dispatch, lifecycle and configuration paths perform are translated into
executable Lean definitions; the connection pool (a Go map keyed by UID)
is modelled as an association list with first-match lookup, channels as
lists of queued messages, and a nil-pointer dereference as the none branch
of an Option result. The ghost fields closedLog and listenerClosed record
calls to Connect.Close and Listener.Close so that frame conditions can be
stated.
-/

set_option autoImplicit false

namespace Teleport

/-- Run mode SERVER (Go: iota + 1). -/
def SERVER : Nat := 1

/-- Run mode CLIENT. -/
def CLIENT : Nat := 2

/-- Reserved operation name for identity registration. -/
def IDENTITY : String := "+identity+"

/-- Reserved operation name for heartbeat. -/
def HEARTBEAT : String := "+heartbeat+"

/-- Status code for success. -/
def SUCCESS : Int := 0

/-- Status code for failure. -/
def FAILURE : Int := -1

/-- Status code for an illegal request (Go constant LLLEGAL). -/
def LLLEGAL : Int := -2

/-- Message record carried on the wire and given to handlers (Go struct
NetData). Body is interface\x7b\x7d in Go, transported as bytes and
assigned strings by the error paths; it is modelled as a String. -/
structure NetData where
  Body : String
  Operation : String
  UID : String
  From : String
  To : String
  Status : Int
deriving DecidableEq, Repr

/-- Constructor NewNetData(from, to, operation, body). -/
def NewNetData (frm t_o operation : String) (body : String) : NetData :=
  { From := frm, To := t_o, Body := body, Operation := operation,
    UID := "", Status := SUCCESS }

/-- Wire-decoded record (Go struct NetDataProto); the proto getters return
the stored field, so the fields are kept directly. -/
structure NetDataProto where
  Body : String
  Operation : String
  UID : String
  From : String
  To : String
  Status : Int
deriving DecidableEq, Repr

/-- Connection object (Go struct Connect), restricted to the fields the
dispatch and lifecycle paths read or write: the peer UID, the short-lived
flag, and the outbound queue WriteChan modelled as the list of queued
messages in FIFO order. -/
structure Connect where
  UID : String
  IsShort : Bool
  WriteChan : List NetData
deriving DecidableEq, Repr

/-- Handler contract (Go interface Handle): Process takes the received
message and returns an optional reply (nil becomes none). -/
def Handle : Type := NetData → Option NetData

/-- Handler table (Go type API, a map from operation name to Handle),
modelled as an association list with first-match lookup. -/
def API : Type := List (String × Handle)

/-- Map read api[operation] with the ok flag folded into the Option. -/
def apiLookup : API → String → Option Handle
  | [], _ => none
  | (k, h) :: rest, op => if k = op then some h else apiLookup rest op

/-- Map assignment api[k] = h: replace the first binding of k, or append. -/
def apiSet : API → String → Handle → API
  | [], k, h => [(k, h)]
  | (k0, h0) :: rest, k, h =>
      if k0 = k then (k, h) :: rest else (k0, h0) :: apiSet rest k h

/-- Connection pool (Go map from UID to Connect pointer), modelled as an
association list; lookup returns the first binding. -/
def Pool : Type := List (String × Connect)

/-- Pool lookup, none for a missing key (a nil pointer in Go). -/
def poolLookup : Pool → String → Option Connect
  | [], _ => none
  | (k, c) :: rest, u => if k = u then some c else poolLookup rest u

/-- Enqueue message m on the WriteChan of the connection keyed by u (the
channel send conn.WriteChan <- m on the looked-up conn pointer). -/
def poolEnqueue : Pool → String → NetData → Pool
  | [], _, _ => []
  | (k, c) :: rest, u, m =>
      if k = u then (k, { c with WriteChan := c.WriteChan ++ [m] }) :: poolEnqueue rest u m
      else (k, c) :: poolEnqueue rest u m

/-- Map deletion delete(pool, u). -/
def poolRemove : Pool → String → Pool
  | [], _ => []
  | (k, c) :: rest, u =>
      if k = u then poolRemove rest u else (k, c) :: poolRemove rest u

/-- Node state (Go struct TP) restricted to the fields the verified paths
touch. hasListener models listener != nil; listenerClosed and closedLog
are ghost fields recording Listener.Close and Connect.Close calls. -/
structure TP where
  uid : String
  mode : Nat
  port : String
  serverAddr : String
  hasListener : Bool
  listenerClosed : Bool
  canClose : Bool
  connPool : Pool
  timeout : Nat
  api : API
  apiReadChan : List NetData
  closedLog : List String

/-- Constructor New(): zero values with the documented defaults. -/
def New : TP :=
  { uid := "", mode := 0, port := "", serverAddr := "",
    hasListener := false, listenerClosed := false, canClose := false,
    connPool := [], timeout := 0, api := [], apiReadChan := [],
    closedLog := [] }

/-- Reserved identity handler (Go identity.Process): swaps From and To in
the received message and returns it. -/
def identi : Handle := fun receive =>
  some { receive with From := receive.To, To := receive.From }

/-- Reserved heartbeat handler (Go heartbeat.Process): returns no reply. -/
def beat : Handle := fun _ => none

/-- TP.reserveAPI: force the two reserved bindings into the table. -/
def TP.reserveAPI (self : TP) : TP :=
  { self with api := apiSet (apiSet self.api IDENTITY identi) HEARTBEAT beat }

/-- TP.SetAPI: install the user handler table. -/
def TP.SetAPI (self : TP) (api : API) : TP :=
  { self with api := api }

/-- TP.SetUID: set the node UID; a no-op in server mode. -/
def TP.SetUID (self : TP) (nodeuid : String) : TP :=
  if self.mode = SERVER then self else { self with uid := nodeuid }

/-- TP.SetTimeout. -/
def TP.SetTimeout (self : TP) (long : Nat) : TP :=
  { self with timeout := long }

/-- TP.Server(port): reserve the API, switch to server mode, force the UID
to the literal Server, and default a zero timeout to 5 seconds (5e9 ns);
reserveAPI leaves the timeout untouched, so the two branches are written
flat. -/
def TP.Server (self : TP) (port : String) : TP :=
  if self.timeout = 0 then
    { self.reserveAPI with mode := SERVER, port := port, uid := "Server",
                           timeout := 5000000000 }
  else
    { self.reserveAPI with mode := SERVER, port := port, uid := "Server" }

/-- First element of the variadic isShort, false when absent. -/
def isShortFlag : List Bool → Bool
  | [] => false
  | b :: _ => b

/-- TP.Client(serverAddr, port, isShort...): when short, set canClose;
otherwise default a zero timeout to 3 seconds (3e9 ns); then reserve the
API and switch to client mode. -/
def TP.Client (self : TP) (serverAddr : String) (port : String)
    (isShort : List Bool) : TP :=
  if isShortFlag isShort then
    { self.reserveAPI with canClose := true, mode := CLIENT, port := port,
                           serverAddr := serverAddr }
  else if self.timeout = 0 then
    { self.reserveAPI with timeout := 3000000000, mode := CLIENT, port := port,
                           serverAddr := serverAddr }
  else
    { self.reserveAPI with mode := CLIENT, port := port, serverAddr := serverAddr }

/-- TP.getConn: pool lookup by UID, none for a missing key. -/
def TP.getConn (self : TP) (nodeuid : String) : Option Connect :=
  poolLookup self.connPool nodeuid

/-- TP.closeConn: close the connection and remove it from the pool; a nil
lookup returns without effect. The Connect.Close call is recorded in the
closedLog ghost field. -/
def TP.closeConn (self : TP) (nodeuid : String) : TP :=
  match self.getConn nodeuid with
  | none => self
  | some _ =>
      { self with connPool := poolRemove self.connPool nodeuid,
                  closedLog := self.closedLog ++ [nodeuid] }

/-- ReturnError(receive, status, msg, nodeuid...): overwrite Status and
Body, and set To to the first variadic UID or to the empty string. -/
def ReturnError (receive : NetData) (status : Int) (msg : String)
    (nodeuid : List String) : NetData :=
  { receive with Status := status, Body := msg,
                 To := match nodeuid with | [] => "" | u :: _ => u }

/-- TP.autoErrorHandle(data, status, msg, reqFrom): look up the originator
connection; when present, enqueue on it the error reply built by
ReturnError with From forced to the own UID and To to reqFrom. -/
def TP.autoErrorHandle (self : TP) (data : NetData) (status : Int)
    (msg : String) (reqFrom : String) : TP × Bool :=
  match self.getConn reqFrom with
  | none => (self, false)
  | some _ =>
      let respErr := ReturnError data status msg []
      let respErr := { respErr with From := self.uid, To := reqFrom }
      ({ self with connPool := poolEnqueue self.connPool reqFrom respErr }, true)

/-- Body of the illegal-request log reply built inline in TP.apiHandle. -/
def illegalMsg (op : String) : String :=
  "您请求的API方法（" ++ op ++ "）不存在！"

/-- One iteration of the dispatcher loop TP.apiHandle for an inbound
request req: look up the operation, run the handler, and route the reply,
exactly following the source control flow (operation, from, to are read
from req before the handler runs). -/
def TP.apiHandleStep (self : TP) (req : NetData) : TP :=
  let operation := req.Operation
  let frm := req.To
  let t_o := req.From
  match apiLookup self.api operation with
  | none => (self.autoErrorHandle req LLLEGAL (illegalMsg req.Operation) t_o).1
  | some handle =>
    match handle req with
    | none =>
        match self.getConn t_o with
        | some conn => if conn.IsShort then self.closeConn t_o else self
        | none => self
    | some resp0 =>
        let resp1 := if resp0.To = "" then { resp0 with To := t_o } else resp0
        match self.getConn resp1.To with
        | none => (self.autoErrorHandle req FAILURE "" t_o).1
        | some _ =>
            let resp2 :=
              if resp1.Operation = "" then { resp1 with Operation := operation }
              else resp1
            let resp3 := if resp2.From = "" then { resp2 with From := frm } else resp2
            { self with connPool := poolEnqueue self.connPool resp1.To resp3 }

/-- Per-payload decode step of TP.save on a successful proto.Unmarshal:
a fresh NetData is allocated, its From (still empty at that point) is
replaced by the connection UID, and then every field including From is
overwritten from the decoded record. -/
def saveDecode (protoNetData : NetDataProto) (conn : Connect) : NetData :=
  let d : NetData :=
    { Body := "", Operation := "", UID := "", From := "", To := "", Status := 0 }
  let d := if d.From = "" then { d with From := conn.UID } else d
  { d with Body := protoNetData.Body, Operation := protoNetData.Operation,
           UID := protoNetData.UID, From := protoNetData.From,
           To := protoNetData.To, Status := protoNetData.Status }

/-- ProtoNetData2 on a successful proto.Unmarshal: identical assignment
order to the decode step of TP.save. -/
def ProtoNetData2 (protoNetData : NetDataProto) (conn : Connect) : NetData :=
  let d : NetData :=
    { Body := "", Operation := "", UID := "", From := "", To := "", Status := 0 }
  let d := if d.From = "" then { d with From := conn.UID } else d
  { d with Body := protoNetData.Body, Operation := protoNetData.Operation,
           UID := protoNetData.UID, From := protoNetData.From,
           To := protoNetData.To, Status := protoNetData.Status }

/-- Publication of one decoded payload onto the inbound queue apiReadChan
(the channel send in TP.save). -/
def TP.savePublish (self : TP) (protoNetData : NetDataProto) (conn : Connect) : TP :=
  { self with apiReadChan := self.apiReadChan ++ [saveDecode protoNetData conn] }

/-- Loop body of TP.Close over an explicit UID list: for each uid, call
Close on the pool entry and delete it. A missing key yields a nil pointer
whose Close call faults; the fault is the none result. -/
def closeList (self : TP) (uids : List String) : Option TP :=
  match uids with
  | [] => some self
  | u :: rest =>
      match self.getConn u with
      | none => none
      | some _ =>
          closeList
            { self with connPool := poolRemove self.connPool u,
                        closedLog := self.closedLog ++ [u] } rest

/-- TP.Close(nodeuid...): close the listener when one exists, set
canClose, then either drain the whole pool (no arguments) or close the
listed connections. -/
def TP.Close (self : TP) (nodeuid : List String) : Option TP :=
  let s := if self.hasListener then { self with listenerClosed := true } else self
  let s := { s with canClose := true }
  match nodeuid with
  | [] =>
      some { s with closedLog := s.closedLog ++ s.connPool.map Prod.fst,
                    connPool := [] }
  | _ => closeList s nodeuid

/-! Pool and table lemmas. -/

theorem poolLookup_enqueue_self (pool : Pool) (u : String) (m : NetData) :
    poolLookup (poolEnqueue pool u m) u =
      (poolLookup pool u).map fun c => { c with WriteChan := c.WriteChan ++ [m] } := by
  induction pool with
  | nil => rfl
  | cons p rest ih =>
      obtain ⟨k, c⟩ := p
      by_cases h : k = u
      · rw [poolEnqueue, if_pos h, poolLookup, if_pos h, poolLookup, if_pos h]
        rfl
      · rw [poolEnqueue, if_neg h, poolLookup, if_neg h, poolLookup, if_neg h, ih]

theorem poolLookup_enqueue_ne (pool : Pool) (u v : String) (m : NetData)
    (h : v ≠ u) :
    poolLookup (poolEnqueue pool u m) v = poolLookup pool v := by
  induction pool with
  | nil => rfl
  | cons p rest ih =>
      obtain ⟨k, c⟩ := p
      by_cases hk : k = u
      · have hkv : ¬ k = v := fun hh => h (hh ▸ hk)
        rw [poolEnqueue, if_pos hk, poolLookup, if_neg hkv, poolLookup, if_neg hkv, ih]
      · by_cases hkv : k = v
        · rw [poolEnqueue, if_neg hk, poolLookup, if_pos hkv, poolLookup, if_pos hkv]
        · rw [poolEnqueue, if_neg hk, poolLookup, if_neg hkv, poolLookup, if_neg hkv, ih]

theorem poolLookup_remove_self (pool : Pool) (u : String) :
    poolLookup (poolRemove pool u) u = none := by
  induction pool with
  | nil => rfl
  | cons p rest ih =>
      obtain ⟨k, c⟩ := p
      by_cases h : k = u
      · rw [poolRemove, if_pos h, ih]
      · rw [poolRemove, if_neg h, poolLookup, if_neg h, ih]

theorem poolLookup_remove_ne (pool : Pool) (u v : String) (h : v ≠ u) :
    poolLookup (poolRemove pool u) v = poolLookup pool v := by
  induction pool with
  | nil => rfl
  | cons p rest ih =>
      obtain ⟨k, c⟩ := p
      by_cases hk : k = u
      · have hkv : ¬ k = v := fun hh => h (hh ▸ hk)
        rw [poolRemove, if_pos hk, poolLookup, if_neg hkv, ih]
      · by_cases hkv : k = v
        · rw [poolRemove, if_neg hk, poolLookup, if_pos hkv, poolLookup, if_pos hkv]
        · rw [poolRemove, if_neg hk, poolLookup, if_neg hkv, poolLookup, if_neg hkv, ih]

theorem apiLookup_set_self (a : API) (k : String) (h : Handle) :
    apiLookup (apiSet a k h) k = some h := by
  induction a with
  | nil => rw [apiSet, apiLookup, if_pos rfl]
  | cons p rest ih =>
      obtain ⟨k0, h0⟩ := p
      by_cases hk : k0 = k
      · rw [apiSet, if_pos hk, apiLookup, if_pos rfl]
      · rw [apiSet, if_neg hk, apiLookup, if_neg hk, ih]

theorem apiLookup_set_ne (a : API) (k k2 : String) (h : Handle)
    (hne : k2 ≠ k) :
    apiLookup (apiSet a k h) k2 = apiLookup a k2 := by
  induction a with
  | nil =>
      have hk2 : ¬ k = k2 := fun hh => hne hh.symm
      simp only [apiSet, apiLookup]
      rw [if_neg hk2]
  | cons p rest ih =>
      obtain ⟨k0, h0⟩ := p
      by_cases hk : k0 = k
      · have hk2 : ¬ k = k2 := fun hh => hne (hh.symm)
        have hk02 : ¬ k0 = k2 := fun hh => hk2 (hk ▸ hh)
        rw [apiSet, if_pos hk, apiLookup, if_neg hk2, apiLookup, if_neg hk02]
      · by_cases hk02 : k0 = k2
        · rw [apiSet, if_neg hk, apiLookup, if_pos hk02, apiLookup, if_pos hk02]
        · rw [apiSet, if_neg hk, apiLookup, if_neg hk02, apiLookup, if_neg hk02, ih]

/-! State shape lemmas for the role starters. -/

theorem server_fields (self : TP) (port : String) :
    (self.Server port).uid = "Server" ∧ (self.Server port).mode = SERVER ∧
      (self.Server port).api = apiSet (apiSet self.api IDENTITY identi) HEARTBEAT beat := by
  unfold TP.Server TP.reserveAPI
  split <;> exact ⟨rfl, rfl, rfl⟩

theorem client_fields (self : TP) (serverAddr port : String) (isShort : List Bool) :
    (self.Client serverAddr port isShort).mode = CLIENT ∧
      (self.Client serverAddr port isShort).api =
        apiSet (apiSet self.api IDENTITY identi) HEARTBEAT beat := by
  unfold TP.Client TP.reserveAPI
  split
  · exact ⟨rfl, rfl⟩
  · split <;> exact ⟨rfl, rfl⟩

theorem foldl_SetUID_server (us : List String) (s : TP) (hm : s.mode = SERVER) :
    us.foldl (fun a u => a.SetUID u) s = s := by
  induction us with
  | nil => rfl
  | cons u rest ih =>
      have h1 : s.SetUID u = s := by rw [TP.SetUID, if_pos hm]
      simp only [List.foldl_cons]
      rw [h1]
      exact ih

/-! Dispatcher lemmas. -/

theorem autoErrorHandle_present (self : TP) (data : NetData) (status : Int)
    (msg : String) (reqFrom : String) (c : Connect)
    (hc : self.getConn reqFrom = some c) :
    (self.autoErrorHandle data status msg reqFrom).1 =
      { self with
          connPool :=
            poolEnqueue self.connPool reqFrom
              { data with Status := status, Body := msg,
                          From := self.uid, To := reqFrom } } := by
  unfold TP.autoErrorHandle
  rw [hc]
  rfl

theorem autoErrorHandle_absent (self : TP) (data : NetData) (status : Int)
    (msg : String) (reqFrom : String)
    (hc : self.getConn reqFrom = none) :
    (self.autoErrorHandle data status msg reqFrom).1 = self := by
  unfold TP.autoErrorHandle
  rw [hc]

theorem illegalMsg_ne_empty (op : String) : illegalMsg op ≠ "" := by
  intro h
  have h2 := congrArg String.length h
  rw [illegalMsg, String.length_append, String.length_append] at h2
  have h3 : ("您请求的API方法（" : String).length = 10 := rfl
  have h4 : ("）不存在！" : String).length = 5 := rfl
  have h5 : ("" : String).length = 0 := rfl
  rw [h3, h4, h5] at h2
  omega

theorem apiHandleStep_unknown (self : TP) (req : NetData)
    (hop : apiLookup self.api req.Operation = none) :
    self.apiHandleStep req =
      (self.autoErrorHandle req LLLEGAL (illegalMsg req.Operation) req.From).1 := by
  simp only [TP.apiHandleStep]
  rw [hop]

theorem apiHandleStep_noreply (self : TP) (req : NetData) (h : Handle)
    (hop : apiLookup self.api req.Operation = some h)
    (hnil : h req = none) :
    self.apiHandleStep req =
      (match self.getConn req.From with
       | some conn => if conn.IsShort then self.closeConn req.From else self
       | none => self) := by
  simp only [TP.apiHandleStep, hop, hnil]

theorem apiHandleStep_reply_routed (self : TP) (req resp0 : NetData) (h : Handle)
    (c : Connect)
    (hop : apiLookup self.api req.Operation = some h)
    (hresp : h req = some resp0)
    (hc : self.getConn (if resp0.To = "" then req.From else resp0.To) = some c) :
    self.apiHandleStep req =
      { self with
          connPool :=
            poolEnqueue self.connPool
              (if resp0.To = "" then req.From else resp0.To)
              { resp0 with
                  To := if resp0.To = "" then req.From else resp0.To,
                  Operation :=
                    if resp0.Operation = "" then req.Operation else resp0.Operation,
                  From := if resp0.From = "" then req.To else resp0.From } } := by
  by_cases hTo : resp0.To = "" <;>
    by_cases hOp : resp0.Operation = "" <;>
      by_cases hFr : resp0.From = "" <;>
        (simp [hTo] at hc; simp [TP.apiHandleStep, hop, hresp, hTo, hOp, hFr, hc])

theorem apiHandleStep_reply_unroutable (self : TP) (req resp0 : NetData) (h : Handle)
    (hop : apiLookup self.api req.Operation = some h)
    (hresp : h req = some resp0)
    (hto : self.getConn (if resp0.To = "" then req.From else resp0.To) = none) :
    self.apiHandleStep req = (self.autoErrorHandle req FAILURE "" req.From).1 := by
  by_cases hTo : resp0.To = ""
  · rw [if_pos hTo] at hto
    simp [TP.apiHandleStep, hop, hresp, hTo, hto]
  · rw [if_neg hTo] at hto
    simp [TP.apiHandleStep, hop, hresp, hTo, hto]

theorem getConn_setPool (self : TP) (pool : Pool) (u : String) :
    TP.getConn { self with connPool := pool } u = poolLookup pool u := rfl

theorem getConn_setPoolLog (self : TP) (pool : Pool) (lg : List String) (u : String) :
    TP.getConn { self with connPool := pool, closedLog := lg } u = poolLookup pool u := rfl

/-! Claim theorems. -/

/-- C3: for an inbound message whose Operation is not in the handler
table, when the From connection is pooled, exactly one reply is enqueued
on it, with Status ILLEGAL, To the original From, From the own UID and a
non-empty Body, every other connection queue unchanged; when the From
connection is not pooled, the node state is unchanged. -/
theorem c3_unknown_operation (self : TP) (req : NetData)
    (hop : apiLookup self.api req.Operation = none) :
    (∀ c, self.getConn req.From = some c →
        (self.apiHandleStep req).getConn req.From =
          some { c with
                  WriteChan := c.WriteChan ++
                    [{ req with
                        Status := LLLEGAL,
                        Body := illegalMsg req.Operation,
                        From := self.uid,
                        To := req.From }] }
        ∧ LLLEGAL = -2
        ∧ illegalMsg req.Operation ≠ ""
        ∧ (∀ u, u ≠ req.From → (self.apiHandleStep req).getConn u = self.getConn u))
    ∧ (self.getConn req.From = none → self.apiHandleStep req = self) := by
  constructor
  · intro c hc
    rw [apiHandleStep_unknown self req hop,
      autoErrorHandle_present self req LLLEGAL (illegalMsg req.Operation) req.From c hc]
    refine ⟨?_, rfl, illegalMsg_ne_empty _, ?_⟩
    · rw [getConn_setPool, poolLookup_enqueue_self]
      rw [TP.getConn] at hc
      rw [hc]
      rfl
    · intro u hu
      rw [getConn_setPool, poolLookup_enqueue_ne _ _ _ _ hu, TP.getConn]
  · intro hn
    rw [apiHandleStep_unknown self req hop,
      autoErrorHandle_absent self req _ _ _ hn]

/-- Concrete pooled connection for the C3 witness. -/
def w3conn : Connect := { UID := "alice", IsShort := false, WriteChan := [] }

/-- Concrete node state for the C3 witness: empty handler table. -/
def w3self : TP := { New with uid := "Server", connPool := [("alice", w3conn)] }

/-- Concrete inbound request naming an unregistered operation. -/
def w3req : NetData :=
  { Body := "b", Operation := "nope", UID := "", From := "alice", To := "Server",
    Status := 0 }

/-- Witness for C3 at a concrete input. -/
theorem c3_witness :
    (TP.apiHandleStep w3self w3req).getConn "alice" =
      some { w3conn with
              WriteChan :=
                [{ w3req with
                    Status := LLLEGAL,
                    Body := illegalMsg "nope",
                    From := "Server",
                    To := "alice" }] } :=
  ((c3_unknown_operation w3self w3req rfl).1 w3conn rfl).1

/-- C4: for a handler reply whose target (after the empty-To default) is
absent from the pool, when the original requester is pooled, exactly one
reply with Status FAILURE is enqueued on the requester connection, the
target stays absent, and every other connection queue is unchanged; when
the requester is not pooled either, the node state is unchanged. -/
theorem c4_unroutable_reply (self : TP) (req resp0 : NetData) (h : Handle)
    (hop : apiLookup self.api req.Operation = some h)
    (hresp : h req = some resp0)
    (hto : self.getConn (if resp0.To = "" then req.From else resp0.To) = none) :
    (∀ c, self.getConn req.From = some c →
        (self.apiHandleStep req).getConn req.From =
          some { c with
                  WriteChan := c.WriteChan ++
                    [{ req with
                        Status := FAILURE,
                        Body := "",
                        From := self.uid,
                        To := req.From }] }
        ∧ FAILURE = -1
        ∧ (self.apiHandleStep req).getConn
            (if resp0.To = "" then req.From else resp0.To) = none
        ∧ (∀ u, u ≠ req.From → (self.apiHandleStep req).getConn u = self.getConn u))
    ∧ (self.getConn req.From = none → self.apiHandleStep req = self) := by
  constructor
  · intro c hc
    have hne : (if resp0.To = "" then req.From else resp0.To) ≠ req.From := by
      intro he
      rw [he, hc] at hto
      exact Option.noConfusion hto
    rw [apiHandleStep_reply_unroutable self req resp0 h hop hresp hto,
      autoErrorHandle_present self req FAILURE "" req.From c hc]
    refine ⟨?_, rfl, ?_, ?_⟩
    · rw [getConn_setPool, poolLookup_enqueue_self]
      rw [TP.getConn] at hc
      rw [hc]
      rfl
    · rw [getConn_setPool, poolLookup_enqueue_ne _ _ _ _ hne]
      rw [TP.getConn] at hto
      exact hto
    · intro u hu
      rw [getConn_setPool, poolLookup_enqueue_ne _ _ _ _ hu, TP.getConn]
  · intro hn
    rw [apiHandleStep_reply_unroutable self req resp0 h hop hresp hto,
      autoErrorHandle_absent self req _ _ _ hn]

/-- Concrete handler reply addressed to a UID absent from the pool. -/
def w4resp : NetData :=
  { Body := "x", Operation := "relay", UID := "", From := "", To := "ghost",
    Status := 0 }

/-- Concrete handler returning that reply. -/
def w4h : Handle := fun _ => some w4resp

/-- Concrete pooled requester connection for the C4 witness. -/
def w4conn : Connect := { UID := "alice", IsShort := false, WriteChan := [] }

/-- Concrete node state for the C4 witness. -/
def w4self : TP :=
  { New with uid := "Server", api := [("relay", w4h)],
             connPool := [("alice", w4conn)] }

/-- Concrete inbound request for the C4 witness. -/
def w4req : NetData :=
  { Body := "", Operation := "relay", UID := "", From := "alice", To := "Server",
    Status := 0 }

/-- Witness for C4 at a concrete input. -/
theorem c4_witness :
    (TP.apiHandleStep w4self w4req).getConn "alice" =
      some { w4conn with
              WriteChan :=
                [{ w4req with
                    Status := FAILURE,
                    Body := "",
                    From := "Server",
                    To := "alice" }] } :=
  ((c4_unroutable_reply w4self w4req w4resp w4h rfl rfl rfl).1 w4conn rfl).1

/-- C5: for a handler that returns no reply, when the requester connection
is pooled and short-lived, it is closed and removed from the pool and
every other connection is untouched; when it is pooled but not short-lived
or not pooled at all, the node state is unchanged. -/
theorem c5_noreply_short (self : TP) (req : NetData) (h : Handle)
    (hop : apiLookup self.api req.Operation = some h)
    (hnil : h req = none) :
    (∀ c, self.getConn req.From = some c → c.IsShort = true →
        self.apiHandleStep req =
          { self with connPool := poolRemove self.connPool req.From,
                      closedLog := self.closedLog ++ [req.From] }
        ∧ (self.apiHandleStep req).getConn req.From = none
        ∧ (∀ u, u ≠ req.From → (self.apiHandleStep req).getConn u = self.getConn u))
    ∧ (∀ c, self.getConn req.From = some c → c.IsShort = false →
        self.apiHandleStep req = self)
    ∧ (self.getConn req.From = none → self.apiHandleStep req = self) := by
  have hstep := apiHandleStep_noreply self req h hop hnil
  refine ⟨?_, ?_, ?_⟩
  · intro c hc hshort
    have hclose : self.apiHandleStep req =
        { self with connPool := poolRemove self.connPool req.From,
                    closedLog := self.closedLog ++ [req.From] } := by
      rw [hstep, hc]
      simp only [hshort, if_true]
      rw [TP.closeConn, hc]
    refine ⟨hclose, ?_, ?_⟩
    · rw [hclose, getConn_setPoolLog, poolLookup_remove_self]
    · intro u hu
      rw [hclose, getConn_setPoolLog, poolLookup_remove_ne _ _ _ hu, TP.getConn]
  · intro c hc hshort
    rw [hstep, hc]
    simp only [hshort]
    rfl
  · intro hn
    rw [hstep, hn]

/-- Concrete handler reply with an empty From field for C2. -/
def x2resp : NetData :=
  { Body := "r", Operation := "op", UID := "", From := "", To := "A", Status := 0 }

/-- Concrete handler returning that reply. -/
def x2h : Handle := fun _ => some x2resp

/-- Concrete pooled target connection for C2. -/
def x2conn : Connect := { UID := "A", IsShort := false, WriteChan := [] }

/-- Concrete node whose own UID differs from the request To field. -/
def x2self : TP :=
  { New with uid := "N", api := [("op", x2h)], connPool := [("A", x2conn)] }

/-- Concrete inbound request addressed to the string X, not to the node
own UID N. -/
def x2req : NetData :=
  { Body := "q", Operation := "op", UID := "", From := "A", To := "X", Status := 0 }

/-- Counterexample to C2 as stated: the handler reply has an empty From,
the claim says the dispatcher fills it with the own UID N, but the
enqueued reply carries From X, the To field of the original request. -/
theorem c2_counterexample :
    (TP.apiHandleStep x2self x2req).getConn "A" =
      some { x2conn with WriteChan := [{ x2resp with From := "X" }] }
    ∧ x2self.uid = "N" ∧ ("X" : String) ≠ "N" := by
  refine ⟨by decide, rfl, by decide⟩

/-- C2 (amended): for an inbound request whose handler returns a reply and
whose routing target (after the empty-To default) is pooled, the enqueued
reply is the handler reply with each empty routing field defaulted: To
from the original From, Operation from the original Operation, and From
from the original To field (the own UID only when the request was
addressed to this node); non-empty fields and the remaining fields are
unchanged, and every other connection queue is unchanged. -/
theorem c2_reply_defaults (self : TP) (req resp0 : NetData) (h : Handle)
    (c : Connect)
    (hop : apiLookup self.api req.Operation = some h)
    (hresp : h req = some resp0)
    (hc : self.getConn (if resp0.To = "" then req.From else resp0.To) = some c) :
    (self.apiHandleStep req).getConn (if resp0.To = "" then req.From else resp0.To) =
      some { c with
              WriteChan := c.WriteChan ++
                [{ resp0 with
                    To := if resp0.To = "" then req.From else resp0.To,
                    Operation :=
                      if resp0.Operation = "" then req.Operation else resp0.Operation,
                    From := if resp0.From = "" then req.To else resp0.From }] }
    ∧ (∀ u, u ≠ (if resp0.To = "" then req.From else resp0.To) →
        (self.apiHandleStep req).getConn u = self.getConn u) := by
  rw [apiHandleStep_reply_routed self req resp0 h c hop hresp hc]
  constructor
  · rw [getConn_setPool, poolLookup_enqueue_self]
    rw [TP.getConn] at hc
    rw [hc]
    rfl
  · intro u hu
    rw [getConn_setPool, poolLookup_enqueue_ne _ _ _ _ hu, TP.getConn]

/-- Witness for the amended C2 at a concrete input exercising the
empty-From default. -/
theorem c2_witness :
    (TP.apiHandleStep x2self x2req).getConn "A" =
      some { x2conn with WriteChan := [{ x2resp with From := "X" }] } :=
  (c2_reply_defaults x2self x2req x2resp x2h x2conn rfl rfl rfl).1

/-- Concrete short-lived pooled connection for the C5 witness. -/
def w5conn : Connect := { UID := "alice", IsShort := true, WriteChan := [] }

/-- Concrete node state for the C5 witness: heartbeat handler installed. -/
def w5self : TP :=
  { New with uid := "Server", api := [(HEARTBEAT, beat)],
             connPool := [("alice", w5conn)] }

/-- Concrete heartbeat request over the short-lived connection. -/
def w5req : NetData :=
  { Body := "", Operation := HEARTBEAT, UID := "", From := "alice", To := "Server",
    Status := 0 }

/-- Witness for C5 at a concrete input. -/
theorem c5_witness :
    (TP.apiHandleStep w5self w5req).getConn "alice" = none :=
  (((c5_noreply_short w5self w5req beat rfl rfl).1 w5conn rfl rfl).2).1

/-- Concrete decoded payload with an empty From field. -/
def c1Proto : NetDataProto :=
  { Body := "hi", Operation := "echo", UID := "", From := "", To := "Server",
    Status := 0 }

/-- Concrete originating connection whose peer UID is known. -/
def c1Conn : Connect := { UID := "client1", IsShort := false, WriteChan := [] }

/-- C1: the receive path never substitutes the connection peer UID for an
empty From: the emptiness check runs on the freshly allocated record before
the decoded fields are assigned, and the decoded From then overwrites it,
so the published From always equals the decoded value. In particular a
payload decoded with From empty on a connection with peer UID client1 is
published with From empty, contradicting the claim. -/
theorem c1_receive_from_not_substituted :
    (∀ (p : NetDataProto) (conn : Connect),
        (saveDecode p conn).From = p.From ∧ (ProtoNetData2 p conn).From = p.From)
    ∧ (saveDecode c1Proto c1Conn).From = "" ∧ c1Conn.UID = "client1"
    ∧ (saveDecode c1Proto c1Conn).From ≠ c1Conn.UID := by
  refine ⟨fun p conn => ⟨rfl, rfl⟩, rfl, rfl, by decide⟩

/-- C6: after Server(port) the node UID is the literal Server, and any
sequence of subsequent SetUID calls leaves it unchanged, whatever UID was
configured before. -/
theorem c6_server_uid_fixed (self : TP) (port : String) (us : List String) :
    (self.Server port).uid = "Server"
    ∧ (us.foldl (fun a u => a.SetUID u) (self.Server port)).uid = "Server" := by
  obtain ⟨hu, hm, -⟩ := server_fields self port
  exact ⟨hu, by rw [foldl_SetUID_server us _ hm, hu]⟩

/-- C7: after Server or Client starts, whatever table was installed with
SetAPI beforehand (bindings for the two reserved names included), the
reserved operation identity maps to the built-in handler that swaps From
and To and returns the message, and heartbeat maps to the built-in handler
that returns no reply. -/
theorem c7_reserved_handlers (self : TP) (a : API) (port serverAddr cport : String)
    (isShort : List Bool) :
    apiLookup ((self.SetAPI a).Server port).api IDENTITY = some identi
    ∧ apiLookup ((self.SetAPI a).Server port).api HEARTBEAT = some beat
    ∧ apiLookup ((self.SetAPI a).Client serverAddr cport isShort).api IDENTITY = some identi
    ∧ apiLookup ((self.SetAPI a).Client serverAddr cport isShort).api HEARTBEAT = some beat
    ∧ (∀ m, identi m = some { m with From := m.To, To := m.From })
    ∧ (∀ m, beat m = none) := by
  obtain ⟨-, -, hsapi⟩ := server_fields (self.SetAPI a) port
  obtain ⟨-, hcapi⟩ := client_fields (self.SetAPI a) serverAddr cport isShort
  have hne : IDENTITY ≠ HEARTBEAT := by decide
  refine ⟨?_, ?_, ?_, ?_, fun m => rfl, fun m => rfl⟩
  · rw [hsapi, apiLookup_set_ne _ _ _ _ hne, apiLookup_set_self]
  · rw [hsapi, apiLookup_set_self]
  · rw [hcapi, apiLookup_set_ne _ _ _ _ hne, apiLookup_set_self]
  · rw [hcapi, apiLookup_set_self]

/-- Counterexample to C8 as stated: with the timeout unset, starting the
client in short mode leaves the timeout at zero instead of defaulting it
to 3 seconds, because the short-mode branch skips the timeout default. -/
theorem c8_counterexample :
    New.timeout = 0
    ∧ (TP.Client New "127.0.0.1" ":9988" [true]).timeout = 0
    ∧ (0 : Nat) ≠ 3000000000 :=
  ⟨rfl, rfl, by decide⟩

/-- C8 (amended): a zero timeout is defaulted to 5 seconds by Server and
to 3 seconds by Client only in long mode (isShort absent or false); in
short mode the timeout is left unchanged, and a non-zero timeout is always
preserved. -/
theorem c8_timeout_defaults (self : TP) (port serverAddr cport : String)
    (isShort : List Bool) :
    (self.timeout = 0 → (self.Server port).timeout = 5000000000)
    ∧ (self.timeout ≠ 0 → (self.Server port).timeout = self.timeout)
    ∧ (self.timeout = 0 → isShortFlag isShort = false →
        (self.Client serverAddr cport isShort).timeout = 3000000000)
    ∧ (isShortFlag isShort = true →
        (self.Client serverAddr cport isShort).timeout = self.timeout)
    ∧ (self.timeout ≠ 0 →
        (self.Client serverAddr cport isShort).timeout = self.timeout) := by
  refine ⟨?_, ?_, ?_, ?_, ?_⟩
  · intro h0
    rw [TP.Server, if_pos h0]
  · intro h0
    rw [TP.Server, if_neg h0]
    rfl
  · intro h0 hs
    simp [TP.Client, hs, h0, TP.reserveAPI]
  · intro hs
    simp [TP.Client, hs, TP.reserveAPI]
  · intro h0
    by_cases hs : isShortFlag isShort <;>
      simp [TP.Client, hs, h0, TP.reserveAPI]

/-- Witness for the amended C8 at concrete inputs. -/
theorem c8_witness :
    (TP.Server New ":9988").timeout = 5000000000
    ∧ (TP.Client New "127.0.0.1" ":9988" []).timeout = 3000000000 :=
  ⟨(c8_timeout_defaults New ":9988" "127.0.0.1" ":9988" []).1 rfl,
   (c8_timeout_defaults New ":9988" "127.0.0.1" ":9988" []).2.2.1 rfl rfl⟩

/-! Lemmas for the explicit-list close path. -/

theorem poolLookup_foldl_remove_none :
    ∀ (l : List String) (pool : Pool) (u : String),
      poolLookup pool u = none →
      poolLookup (l.foldl poolRemove pool) u = none := by
  intro l
  induction l with
  | nil => intro pool u h; exact h
  | cons v rest ih =>
      intro pool u h
      simp only [List.foldl_cons]
      apply ih
      by_cases hv : u = v
      · rw [hv]
        exact poolLookup_remove_self pool v
      · rw [poolLookup_remove_ne _ _ _ hv]
        exact h

theorem poolLookup_foldl_remove_mem :
    ∀ (l : List String) (pool : Pool) (u : String), u ∈ l →
      poolLookup (l.foldl poolRemove pool) u = none := by
  intro l
  induction l with
  | nil => intro pool u h; cases h
  | cons v rest ih =>
      intro pool u h
      simp only [List.foldl_cons]
      rcases List.mem_cons.mp h with h1 | h2
      · rw [h1]
        exact poolLookup_foldl_remove_none rest (poolRemove pool v) v
          (poolLookup_remove_self pool v)
      · exact ih (poolRemove pool v) u h2

theorem poolLookup_foldl_remove_not_mem :
    ∀ (l : List String) (pool : Pool) (u : String), u ∉ l →
      poolLookup (l.foldl poolRemove pool) u = poolLookup pool u := by
  intro l
  induction l with
  | nil => intro pool u _; rfl
  | cons v rest ih =>
      intro pool u h
      simp only [List.foldl_cons]
      have hv : u ≠ v := fun hh => h (hh ▸ List.mem_cons_self v rest)
      have hr : u ∉ rest := fun hh => h (List.mem_cons_of_mem v hh)
      rw [ih (poolRemove pool v) u hr, poolLookup_remove_ne _ _ _ hv]

theorem getConn_setFlags (self : TP) (b1 b2 : Bool) (v : String) :
    TP.getConn { self with listenerClosed := b1, canClose := b2 } v =
      self.getConn v := rfl

theorem closeList_eq :
    ∀ (uids : List String) (self : TP), uids.Nodup →
      (∀ u ∈ uids, (self.getConn u).isSome) →
      closeList self uids =
        some { self with connPool := uids.foldl poolRemove self.connPool,
                         closedLog := self.closedLog ++ uids } := by
  intro uids
  induction uids with
  | nil => intro self _ _; simp [closeList]
  | cons u rest ih =>
      intro self hnd hall
      obtain ⟨c, hc⟩ :=
        Option.isSome_iff_exists.mp (hall u (List.mem_cons_self u rest))
      have hnotin : u ∉ rest := (List.nodup_cons.mp hnd).1
      have hnd2 : rest.Nodup := (List.nodup_cons.mp hnd).2
      have hall2 : ∀ v ∈ rest,
          ((TP.getConn
            { self with
                connPool := poolRemove self.connPool u,
                closedLog := self.closedLog ++ [u] } v).isSome) := by
        intro v hv
        have hvne : v ≠ u := fun hh => hnotin (hh ▸ hv)
        rw [getConn_setPoolLog, poolLookup_remove_ne _ _ _ hvne]
        exact hall v (List.mem_cons_of_mem u hv)
      simp only [closeList, hc]
      rw [ih _ hnd2 hall2]
      simp [List.append_assoc]

theorem closeList_absent :
    ∀ (uids : List String) (self : TP) (u : String), u ∈ uids →
      self.getConn u = none → closeList self uids = none := by
  intro uids
  induction uids with
  | nil => intro self u h _; cases h
  | cons v rest ih =>
      intro self u hmem habs
      rcases List.mem_cons.mp hmem with h1 | h2
      · rw [h1] at habs
        simp [closeList, habs]
      · cases hgv : self.getConn v with
        | none => simp [closeList, hgv]
        | some c =>
            have hvne : u ≠ v := by
              intro hh
              rw [hh, hgv] at habs
              exact Option.noConfusion habs
            simp only [closeList, hgv]
            apply ih _ u h2
            rw [getConn_setPoolLog, poolLookup_remove_ne _ _ _ hvne]
            exact habs

theorem Close_cons (self : TP) (u : String) (rest : List String) :
    self.Close (u :: rest) =
      closeList { self with
                  listenerClosed := if self.hasListener then true
                                    else self.listenerClosed,
                  canClose := true } (u :: rest) := by
  unfold TP.Close
  by_cases hl : self.hasListener <;> simp [hl]

/-! Close claim theorems. -/

/-- Concrete pooled connection for the C9 counterexample. -/
def x9conn : Connect := { UID := "u", IsShort := false, WriteChan := [] }

/-- Concrete node with a listener and the can-close flag unset. -/
def x9self : TP :=
  { New with hasListener := true, connPool := [("u", x9conn)] }

/-- Counterexample to C9 as stated: closing the single listed pooled
connection also sets the can-close flag and closes the listener, which the
claim says are not modified; and for the duplicated list with every
element present in the pool the call faults instead of closing the listed
connections, because the second pass looks up the already deleted key. -/
theorem c9_counterexample :
    x9self.canClose = false ∧ x9self.listenerClosed = false
    ∧ (TP.Close x9self ["u"]).map TP.canClose = some true
    ∧ (TP.Close x9self ["u"]).map TP.listenerClosed = some true
    ∧ (TP.Close x9self ["u", "u"]).isNone = true := by
  refine ⟨rfl, rfl, by decide, by decide, by decide⟩

/-- C9 (amended): for a non-empty duplicate-free list of UIDs all present
in the pool, Close closes and removes from the pool exactly the listed
connections, leaving the entries of unlisted UIDs and the uid, mode, port,
serverAddr, timeout, api and inbound-queue fields unchanged, but it also
sets the can-close flag and closes the listener when one exists. -/
theorem c9_close_listed (self : TP) (uids : List String)
    (hne : uids ≠ []) (hnd : uids.Nodup)
    (hall : ∀ u ∈ uids, (self.getConn u).isSome) :
    self.Close uids =
      some { self with
              listenerClosed := if self.hasListener then true
                                else self.listenerClosed,
              canClose := true,
              connPool := uids.foldl poolRemove self.connPool,
              closedLog := self.closedLog ++ uids }
    ∧ (∀ u ∈ uids, poolLookup (uids.foldl poolRemove self.connPool) u = none)
    ∧ (∀ u, u ∉ uids →
        poolLookup (uids.foldl poolRemove self.connPool) u = self.getConn u) := by
  refine ⟨?_, ?_, ?_⟩
  · cases uids with
    | nil => exact absurd rfl hne
    | cons u rest =>
        rw [Close_cons]
        have hall2 : ∀ v ∈ u :: rest,
            ((TP.getConn { self with
                listenerClosed := if self.hasListener then true
                                  else self.listenerClosed,
                canClose := true } v).isSome) := by
          intro v hv
          rw [getConn_setFlags]
          exact hall v hv
        rw [closeList_eq _ _ hnd hall2]
  · intro u hu
    exact poolLookup_foldl_remove_mem uids self.connPool u hu
  · intro u hu
    rw [poolLookup_foldl_remove_not_mem uids self.connPool u hu, TP.getConn]

/-- Pooled connection for the C9 witness. -/
def w9conn : Connect := { UID := "bob", IsShort := false, WriteChan := [] }

/-- Unlisted pooled connection for the C9 witness. -/
def w9conn2 : Connect := { UID := "eve", IsShort := false, WriteChan := [] }

/-- Node state for the C9 witness. -/
def w9self : TP :=
  { New with hasListener := true,
             connPool := [("bob", w9conn), ("eve", w9conn2)] }

/-- Witness for the amended C9 at a concrete input. -/
theorem c9_witness :
    TP.Close w9self ["bob"] =
      some { w9self with
              listenerClosed := true,
              canClose := true,
              connPool := [("eve", w9conn2)],
              closedLog := ["bob"] } :=
  (c9_close_listed w9self ["bob"] (by decide) (by simp)
    (by intro u hu; simp at hu; rw [hu]; rfl)).1

/-- C10: Close over an explicit UID list is total only when every listed
UID is pooled: as soon as one listed UID has no pool entry, the lookup in
the close loop yields the nil connection and the unguarded Close call on
it faults, modelled by the none result. -/
theorem c10_close_absent (self : TP) (uids : List String) (u : String)
    (hmem : u ∈ uids) (habs : self.getConn u = none) :
    self.Close uids = none := by
  cases uids with
  | nil => cases hmem
  | cons v rest =>
      rw [Close_cons]
      apply closeList_absent _ _ u hmem
      rw [getConn_setFlags]
      exact habs

/-- Witness for C10: a fresh node has an empty pool, so closing a listed
unknown UID faults. -/
theorem c10_witness : TP.Close New ["ghost"] = none :=
  c10_close_absent New ["ghost"] "ghost" (List.mem_singleton.mpr rfl) rfl

end Teleport
